import Mathlib

/-!
Shallow embedding of the `rs-mod-agent` crate (`src/lib.rs`): a user-agent
normalization, canonicalization and hashing pipeline.  The Rust code parses a
raw user-agent string into optional structured attribute groups and derives
two identifiers: a fingerprint (double BLAKE3 over a sorted feature-token
string) and a family hash (single BLAKE3 over a pipe-delimited canonical
string).  Machine words are modelled as `Nat` reduced modulo `2 ^ 32`;
strings are Lean `String`s (lists of characters), and byte-level operations
go through UTF-8 encoding exactly where the Rust code operates on bytes.
-/

namespace RsAgent

/-! ## 32-bit word arithmetic (Nat, reduced mod 2^32) -/

/-- Reduce a natural number to a 32-bit word. -/
def u32 (n : Nat) : Nat := n % 4294967296

/-- 32-bit wrapping addition. -/
def add32 (a b : Nat) : Nat := (a + b) % 4294967296

/-- Bitwise xor (stays below `2 ^ 32` for 32-bit inputs). -/
def xor32 (a b : Nat) : Nat := Nat.xor a b

/-- Right-rotation of a 32-bit word by `n` bits (for `x < 2 ^ 32`, `n ≤ 32`). -/
def rotr32 (x n : Nat) : Nat := x / 2 ^ n + x % 2 ^ n * 2 ^ (32 - n)

/-! ## BLAKE3 (as used by `blake3::Hasher` in the source)

Faithful translation of the BLAKE3 reference algorithm in hashing mode
(no key, no derive-key): chunking into 1024-byte chunks, the 7-round
compression function, the left-greedy binary tree of parent nodes, and the
32-byte root output, hex-encoded in lowercase. -/

/-- The BLAKE3 initialization vector (first eight SHA-256 IV words). -/
def blakeIV : List Nat :=
  [0x6A09E667, 0xBB67AE85, 0x3C6EF372, 0xA54FF53A,
   0x510E527F, 0x9B05688C, 0x1F83D9AB, 0x5BE0CD19]

/-- Flag bit for the first block of a chunk. -/
def CHUNK_START : Nat := 1
/-- Flag bit for the last block of a chunk. -/
def CHUNK_END : Nat := 2
/-- Flag bit for a parent node compression. -/
def PARENT : Nat := 4
/-- Flag bit for the root compression. -/
def ROOT : Nat := 8

/-- The message word permutation applied between rounds. -/
def permuteMsg (m : List Nat) : List Nat :=
  [2, 6, 3, 10, 7, 0, 4, 13, 1, 11, 12, 5, 9, 14, 15, 8].map (fun i => m.getD i 0)

/-- The BLAKE3 quarter-round `g` acting on positions `a b c d` of the state. -/
def gMix (st : List Nat) (a b c d mx my : Nat) : List Nat :=
  let va := add32 (st.getD a 0) (add32 (st.getD b 0) mx)
  let vd := rotr32 (xor32 (st.getD d 0) va) 16
  let vc := add32 (st.getD c 0) vd
  let vb := rotr32 (xor32 (st.getD b 0) vc) 12
  let va2 := add32 va (add32 vb my)
  let vd2 := rotr32 (xor32 vd va2) 8
  let vc2 := add32 vc vd2
  let vb2 := rotr32 (xor32 vb vc2) 7
  (((st.set a va2).set b vb2).set c vc2).set d vd2

/-- One full BLAKE3 round: mix columns then diagonals. -/
def roundFn (st m : List Nat) : List Nat :=
  let st := gMix st 0 4 8 12 (m.getD 0 0) (m.getD 1 0)
  let st := gMix st 1 5 9 13 (m.getD 2 0) (m.getD 3 0)
  let st := gMix st 2 6 10 14 (m.getD 4 0) (m.getD 5 0)
  let st := gMix st 3 7 11 15 (m.getD 6 0) (m.getD 7 0)
  let st := gMix st 0 5 10 15 (m.getD 8 0) (m.getD 9 0)
  let st := gMix st 1 6 11 12 (m.getD 10 0) (m.getD 11 0)
  let st := gMix st 2 7 8 13 (m.getD 12 0) (m.getD 13 0)
  gMix st 3 4 9 14 (m.getD 14 0) (m.getD 15 0)

/-- The BLAKE3 compression function: 16 input words, 7 rounds, xor folding. -/
def compressB3 (cv block : List Nat) (counter blockLen flags : Nat) : List Nat :=
  let st0 := cv.take 8 ++ blakeIV.take 4 ++
    [u32 counter, u32 (counter / 4294967296), blockLen, flags]
  let m1 := block
  let st1 := roundFn st0 m1
  let m2 := permuteMsg m1
  let st2 := roundFn st1 m2
  let m3 := permuteMsg m2
  let st3 := roundFn st2 m3
  let m4 := permuteMsg m3
  let st4 := roundFn st3 m4
  let m5 := permuteMsg m4
  let st5 := roundFn st4 m5
  let m6 := permuteMsg m5
  let st6 := roundFn st5 m6
  let m7 := permuteMsg m6
  let st := roundFn st6 m7
  (List.range 16).map (fun i =>
    if i < 8 then xor32 (st.getD i 0) (st.getD (i + 8) 0)
    else xor32 (st.getD i 0) (cv.getD (i - 8) 0))

/-- Little-endian decoding of a byte list into 32-bit words (4 bytes each). -/
def bytesToWords (bytes : List Nat) : List Nat :=
  match bytes with
  | [] => []
  | b :: rest =>
    (b + rest.getD 0 0 * 256 + rest.getD 1 0 * 65536 + rest.getD 2 0 * 16777216) ::
      bytesToWords (rest.drop 3)
termination_by bytes.length
decreasing_by simp only [List.length_drop, List.length_cons]; omega

/-- Pad a block of at most 64 bytes with zeros and decode it into 16 words. -/
def padWords (bytes : List Nat) : List Nat :=
  bytesToWords (bytes ++ List.replicate (64 - bytes.length) 0)

/-- Split a chunk's bytes into 64-byte blocks (one possibly short final
block; an empty chunk yields a single empty block). -/
def splitBlocks (bytes : List Nat) : List (List Nat) :=
  if bytes.length ≤ 64 then [bytes]
  else bytes.take 64 :: splitBlocks (bytes.drop 64)
termination_by bytes.length
decreasing_by simp only [List.length_drop]; omega

/-- Split the input bytes into 1024-byte chunks (the final chunk may be
short; empty input yields a single empty chunk). -/
def splitChunks (bytes : List Nat) : List (List Nat) :=
  if bytes.length ≤ 1024 then [bytes]
  else bytes.take 1024 :: splitChunks (bytes.drop 1024)
termination_by bytes.length
decreasing_by simp only [List.length_drop]; omega

/-- A pending BLAKE3 output: the inputs of the final compression of a chunk
or parent node, kept un-finalized so the `ROOT` flag can still be added. -/
structure B3Out where
  inCV : List Nat
  block : List Nat
  counter : Nat
  blockLen : Nat
  flags : Nat

/-- Chaining value of a pending output (first eight compression words). -/
def B3Out.chainingValue (o : B3Out) : List Nat :=
  (compressB3 o.inCV o.block o.counter o.blockLen o.flags).take 8

/-- Process a chunk's blocks: fold all but the last into the chaining value,
return the last block as a pending output with the `CHUNK_END` flag. -/
def chunkFold (cv : List Nat) (t : Nat) (startFlag : Nat) : List (List Nat) → B3Out
  | [] => ⟨cv, padWords [], t, 0, startFlag + CHUNK_END⟩
  | [b] => ⟨cv, padWords b, t, b.length, startFlag + CHUNK_END⟩
  | b :: b2 :: rest =>
    chunkFold ((compressB3 cv (padWords b) t 64 startFlag).take 8) t 0 (b2 :: rest)

/-- Pending output of the chunk with index `t`. -/
def chunkOutput (t : Nat) (bytes : List Nat) : B3Out :=
  chunkFold blakeIV t CHUNK_START (splitBlocks bytes)

/-- Largest power of two strictly below `n` (for `n ≥ 2`). -/
def largestPow2Below (n : Nat) : Nat := 2 ^ Nat.log 2 (n - 1)

theorem largestPow2Below_pos (n : Nat) : 0 < largestPow2Below n :=
  Nat.pos_pow_of_pos _ (by decide)

theorem largestPow2Below_lt {n : Nat} (h : 2 ≤ n) : largestPow2Below n < n := by
  have h1 : n - 1 ≠ 0 := by omega
  have := Nat.pow_log_le_self 2 h1
  unfold largestPow2Below
  omega

/-- Root of the left-greedy BLAKE3 chunk tree over the chunks, the first of
which has index `t0`: a single chunk is its own output, otherwise the left
subtree takes the largest power-of-two number of chunks below the total. -/
def treeOutput (chunks : List (List Nat)) (t0 : Nat) : B3Out :=
  match chunks with
  | [] => chunkOutput t0 []
  | [c] => chunkOutput t0 c
  | c1 :: c2 :: rest =>
    let l := largestPow2Below (rest.length + 2)
    let left := treeOutput ((c1 :: c2 :: rest).take l) t0
    let right := treeOutput ((c1 :: c2 :: rest).drop l) (t0 + l)
    ⟨blakeIV, left.chainingValue ++ right.chainingValue, 0, 64, PARENT⟩
termination_by chunks.length
decreasing_by
  · have hl := largestPow2Below_lt (n := rest.length + 2) (by omega)
    simp only [List.length_take, List.length_cons]
    omega
  · have hp := largestPow2Below_pos (rest.length + 2)
    simp only [List.length_drop, List.length_cons]
    omega

/-- Little-endian encoding of 32-bit words into bytes. -/
def wordsToBytes (ws : List Nat) : List Nat :=
  ws.flatMap (fun w => [w % 256, w / 256 % 256, w / 65536 % 256, w / 16777216 % 256])

/-- The 32-byte BLAKE3 digest of a byte string. -/
def blake3Bytes (bytes : List Nat) : List Nat :=
  let o := treeOutput (splitChunks bytes) 0
  wordsToBytes ((compressB3 o.inCV o.block 0 o.blockLen (o.flags + ROOT)).take 8)

/-- Lowercase hex digit for a value below 16. -/
def hexDigit (n : Nat) : Char :=
  if n < 10 then Char.ofNat (48 + n) else Char.ofNat (87 + n)

/-- Two-digit lowercase hex encoding of a byte. -/
def hexByte (b : Nat) : List Char := [hexDigit (b / 16), hexDigit (b % 16)]

/-- Lowercase hex encoding of a byte string. -/
def toHex (bytes : List Nat) : String := String.mk (bytes.flatMap hexByte)

/-- UTF-8 bytes of a string, as natural numbers. -/
def utf8Bytes (s : String) : List Nat := s.toUTF8.toList.map UInt8.toNat

/-- `blake3::hash` of a string's UTF-8 bytes, hex-encoded lowercase
(`Hasher::finalize().to_hex()` in the source). -/
def blake3Hex (s : String) : String := toHex (blake3Bytes (utf8Bytes s))

/-! ## String utilities mirroring the Rust standard library operations -/

/-- Whether `p` is a leading segment of `l` (Rust `str::starts_with`). -/
def leadsWith : List Char → List Char → Bool
  | [], _ => true
  | _ :: _, [] => false
  | a :: as, b :: bs => a == b && leadsWith as bs

/-- Whether `p.data` occurs contiguously in `l` (byte-substring search of
Rust `str::contains` expressed on characters; for valid UTF-8 the two
coincide because UTF-8 is self-synchronizing). -/
def containsSub (l p : List Char) : Bool :=
  match l with
  | [] => p.isEmpty
  | _ :: t => leadsWith p l || containsSub t p

/-- Rust `str::contains(pat: &str)`. -/
def strContains (s pat : String) : Bool := containsSub s.data pat.data

/-- Rust `str::contains(c: char)`. -/
def strContainsChar (s : String) (c : Char) : Bool := s.data.contains c

/-- Split a character list at every character satisfying `p`, keeping empty
segments. -/
def splitWhen (p : Char → Bool) : List Char → List (List Char)
  | [] => [[]]
  | a :: rest =>
    let r := splitWhen p rest
    if p a then [] :: r
    else
      match r with
      | [] => [[a]]
      | h :: t => (a :: h) :: t

/-- Rust `str::split(c: char)` — splits at every occurrence, keeping empty
segments. -/
def splitOnChar (c : Char) (l : List Char) : List (List Char) :=
  splitWhen (fun a => a == c) l

/-- `str::split` lifted to `String`s. -/
def strSplit (c : Char) (s : String) : List String :=
  (splitOnChar c s.data).map String.mk

/-- Rust `[&str]::join(sep)` / `Vec<String>::join(sep)`. -/
def joinSep (sep : String) : List String → String
  | [] => ""
  | [x] => x
  | x :: y :: rest => x ++ sep ++ joinSep sep (y :: rest)

/-- Byte-lexicographic comparison used by Rust `Vec<String>::sort()`
(expressed on characters; UTF-8 byte order and code-point order agree). -/
def leChars : List Char → List Char → Bool
  | [], _ => true
  | _ :: _, [] => false
  | a :: as, b :: bs => if a == b then leChars as bs else decide (a < b)

/-- `leChars` lifted to `String`s. -/
def strLeb (a b : String) : Bool := leChars a.data b.data

/-- Rust `char::is_ascii_digit`. -/
def isAsciiDigit (c : Char) : Bool := '0' ≤ c && c ≤ '9'

/-- ASCII-only model of Rust `char::is_alphanumeric` (a Unicode predicate):
agrees with the Rust predicate on every ASCII character; on a non-ASCII
character it returns `false` while the Rust predicate may return `true`
(e.g. on a Unicode letter such as `Ж`).  Statements whose truth depends on
this predicate's value are therefore scoped to ASCII-only text. -/
def isAlphanumericR (c : Char) : Bool :=
  ('a' ≤ c && c ≤ 'z') || ('A' ≤ c && c ≤ 'Z') || ('0' ≤ c && c ≤ '9')

/-- ASCII-only model of Rust `char::is_whitespace` (a Unicode predicate):
agrees with the Rust predicate on every ASCII character (space, tab, line
feed, vertical tab, form feed, carriage return); it misses non-ASCII
Unicode whitespace (e.g. U+00A0), so statements whose truth depends on it
are scoped to ASCII-only text. -/
def isWhitespaceR (c : Char) : Bool :=
  c == ' ' || c == '\t' || c == '\n' || c == '\x0b' || c == '\x0c' || c == '\r'

/-- Split into maximal runs of non-whitespace characters
(Rust `str::split_whitespace`): split at whitespace, drop empty segments. -/
def splitWhitespaceR (l : List Char) : List (List Char) :=
  (splitWhen isWhitespaceR l).filter (fun seg => !seg.isEmpty)

/-- Whether every character of the text is ASCII.  On such text
`isAlphanumericR` and `isWhitespaceR` coincide with the Rust Unicode
predicates they model, character by character. -/
def isAsciiText (ua : String) : Bool := ua.data.all (fun c => c.toNat < 128)

/-! ## Data model (`UserAgent` and its attribute groups, `src/lib.rs`) -/

/-- Details about the browser or application (`Product` in the source). -/
structure Product where
  name : Option String
  major : Option String
  minor : Option String
  patch : Option String
deriving DecidableEq

/-- Details about the operating system (`OS` in the source). -/
structure OS where
  name : Option String
  major : Option String
  minor : Option String
  patch : Option String
  patch_minor : Option String
deriving DecidableEq

/-- Details of the device (`Device` in the source). -/
structure Device where
  name : Option String
  brand : Option String
  model : Option String
deriving DecidableEq

/-- CPU architecture details (`CPU` in the source). -/
structure CPU where
  architecture : Option String
deriving DecidableEq

/-- Details about the browser engine (`Engine` in the source). -/
structure Engine where
  name : Option String
  major : Option String
  minor : Option String
  patch : Option String
  patch_minor : Option String
deriving DecidableEq

/-- Parsed user agent information (`UserAgent` in the source): address,
the two derived identifiers, the structured attribute groups and the raw
user-agent text. -/
structure UserAgent where
  ip : Option String
  fingerprint : Option String
  hash : Option String
  product : Product
  os : OS
  device : Device
  cpu : CPU
  engine : Engine
  user_agent : Option String
deriving DecidableEq

/-! ## Feature vector builder (`UserAgent::fingerprint`, lines 149-284) -/

/-- Browser component tokens: `b:<name>`, then `bv:<major>` gated on the
name, then `bvm:<major>.<minor>` gated on name and major (lines 152-164). -/
def productTokens (p : Product) : List String :=
  match p.name with
  | none => []
  | some n =>
    ["b:" ++ n] ++
      match p.major with
      | none => []
      | some maj =>
        ["bv:" ++ maj] ++
          match p.minor with
          | none => []
          | some mi => ["bvm:" ++ maj ++ "." ++ mi]

/-- OS component tokens: `o:<name>`, `ov:<major>`, `ovm:<major>.<minor>`
with the same nested gating (lines 167-179). -/
def osTokens (o : OS) : List String :=
  match o.name with
  | none => []
  | some n =>
    ["o:" ++ n] ++
      match o.major with
      | none => []
      | some maj =>
        ["ov:" ++ maj] ++
          match o.minor with
          | none => []
          | some mi => ["ovm:" ++ maj ++ "." ++ mi]

/-- Device component tokens: `d:<name>`, and `db:<brand>` / `dm:<model>`
each gated on the name but independent of each other (lines 182-192). -/
def deviceTokens (d : Device) : List String :=
  match d.name with
  | none => []
  | some n =>
    ["d:" ++ n] ++
      (match d.brand with
       | none => []
       | some b => ["db:" ++ b]) ++
      (match d.model with
       | none => []
       | some m => ["dm:" ++ m])

/-- CPU architecture token `c:<architecture>` (lines 195-197). -/
def cpuTokens (c : CPU) : List String :=
  match c.architecture with
  | none => []
  | some a => ["c:" ++ a]

/-- Engine tokens: `e:<name>` and `ev:<major>` gated on the name
(lines 200-206). -/
def engineTokens (e : Engine) : List String :=
  match e.name with
  | none => []
  | some n =>
    ["e:" ++ n] ++
      match e.major with
      | none => []
      | some maj => ["ev:" ++ maj]

/-- Count of ASCII digit characters of the raw text (line 215). -/
def countDigits (ua : String) : Nat := (ua.data.filter isAsciiDigit).length

/-- Count of non-alphanumeric characters of the raw text (line 216). -/
def countSymbols (ua : String) : Nat :=
  (ua.data.filter (fun c => !isAlphanumericR c)).length

/-- Count of whitespace-delimited words of the raw text (line 221). -/
def countWords (ua : String) : Nat := (splitWhitespaceR ua.data).length

/-- Structural statistics tokens `l:` (UTF-8 byte length, Rust `str::len`),
`d:` (ASCII digit count), `s:` (non-alphanumeric count) and `w:`
(whitespace-delimited word count) of the raw text (lines 212-222). -/
def statTokens (ua : String) : List String :=
  ["l:" ++ toString ua.utf8ByteSize,
   "d:" ++ toString (countDigits ua),
   "s:" ++ toString (countSymbols ua),
   "w:" ++ toString (countWords ua)]

/-- Browser-capability flag tokens driven by substring tests on the raw
text; the Safari flag fires only when the Chrome substring is absent
(lines 225-255). -/
def flagTokens (ua : String) : List String :=
  (if strContains ua "Mobile" then ["fm:1"] else []) ++
  (if strContains ua "AppleWebKit" then ["faw:1"] else []) ++
  (if strContains ua "Gecko" then ["fg:1"] else []) ++
  (if strContains ua "Chrome" then ["fc:1"] else []) ++
  (if strContains ua "Safari" && !strContains ua "Chrome" then ["fs:1"] else []) ++
  (if strContains ua "Firefox" then ["ff:1"] else []) ++
  (if strContains ua "Edge" || strContains ua "Edg/" then ["fe:1"] else []) ++
  (if strContains ua "MSIE" || strContains ua "Trident" then ["fi:1"] else [])

/-- Platform flag token: mutually exclusive priority chain Windows, Mac,
Linux, Android, iOS-family (lines 257-267). -/
def platformTokens (ua : String) : List String :=
  if strContains ua "Win" then ["fow:1"]
  else if strContains ua "Mac" then ["fom:1"]
  else if strContains ua "Linux" then ["fol:1"]
  else if strContains ua "Android" then ["foa:1"]
  else if strContains ua "iOS" || strContains ua "iPhone" || strContains ua "iPad"
    then ["foi:1"]
  else []

/-- Network-prefix token from the address, if any: `ip4:` with the first
two dot-segments when the address contains a dot, otherwise `ip6:` with the
first four colon-segments when it contains a colon and splits into at least
four segments (lines 270-284). -/
def ipTokens : Option String → List String
  | none => []
  | some ip =>
    if strContainsChar ip '.' then
      let parts := strSplit '.' ip
      if 2 ≤ parts.length then
        ["ip4:" ++ parts.getD 0 "" ++ "." ++ parts.getD 1 ""]
      else []
    else if strContainsChar ip ':' then
      let parts := strSplit ':' ip
      if 4 ≤ parts.length then
        ["ip6:" ++ joinSep ":" (parts.take 4)]
      else []
    else []

/-- The full unsorted feature vector of a record whose raw text is `ua`
(the `feature_parts` vector of `UserAgent::fingerprint` just before the
`sort()` call). -/
def buildFeatures (r : UserAgent) (ua : String) : List String :=
  productTokens r.product ++ osTokens r.os ++ deviceTokens r.device ++
    cpuTokens r.cpu ++ engineTokens r.engine ++ statTokens ua ++
    flagTokens ua ++ platformTokens ua ++ ipTokens r.ip

/-- The feature vector after the `feature_parts.sort()` call. -/
def sortedFeatures (r : UserAgent) (ua : String) : List String :=
  (buildFeatures r ua).mergeSort strLeb

/-- `UserAgent::fingerprint` (lines 144-302): `None` without a raw text;
otherwise the sorted feature tokens joined by `"&%&"`, hashed with BLAKE3,
hex-encoded, hashed again and hex-encoded. -/
def UserAgent.computeFingerprint (r : UserAgent) : Option String :=
  r.user_agent.map (fun ua =>
    blake3Hex (blake3Hex (joinSep "&%&" (sortedFeatures r ua))))

/-! ## Canonicalizer and family hasher
(`UserAgent::normalized_string_internal` and `UserAgent::hash`) -/

/-- The non-absent values of a list of optional fields, in order. -/
def presentParts (l : List (Option String)) : List String := l.filterMap id

/-- The browser group-string: present product fields joined by `.`,
empty when no field is present (lines 341-354). -/
def browserStr (r : UserAgent) : String :=
  let parts := presentParts
    [r.product.name, r.product.major, r.product.minor, r.product.patch]
  if !parts.isEmpty then joinSep "." parts else ""

/-- The OS group-string (lines 357-371). -/
def osStr (r : UserAgent) : String :=
  let parts := presentParts
    [r.os.name, r.os.major, r.os.minor, r.os.patch, r.os.patch_minor]
  if !parts.isEmpty then joinSep "." parts else ""

/-- The device group-string (lines 374-386). -/
def deviceStr (r : UserAgent) : String :=
  let parts := presentParts [r.device.name, r.device.brand, r.device.model]
  if !parts.isEmpty then joinSep "." parts else ""

/-- `UserAgent::normalized_string_internal` (lines 339-408): the non-empty
group-strings followed by the raw text, joined by pipes. -/
def UserAgent.normalizedStringInternal (r : UserAgent) (ua_string : String) : String :=
  let sections :=
    (if !(browserStr r).isEmpty then [browserStr r] else []) ++
    (if !(osStr r).isEmpty then [osStr r] else []) ++
    (if !(deviceStr r).isEmpty then [deviceStr r] else []) ++
    [ua_string]
  joinSep "|" sections

/-- `UserAgent::normalized_string` (lines 332-336). -/
def UserAgent.normalizedString (r : UserAgent) : Option String :=
  r.user_agent.map (fun ua => r.normalizedStringInternal ua)

/-- `UserAgent::hash` (lines 313-322): single BLAKE3 pass over the
normalized string, hex-encoded; `None` without a raw text. -/
def UserAgent.computeHash (r : UserAgent) : Option String :=
  r.user_agent.map (fun ua => blake3Hex (r.normalizedStringInternal ua))

/-! ## Parsing adapter (`parse`, lines 57-112) -/

/-- The five structured results returned by the external regex parser for
one raw agent string (the `user-agent-parser` crate, a collaborator outside
this repository; each field is independently optional). -/
structure ParsedAgent where
  product : Product
  os : OS
  device : Device
  cpu : CPU
  engine : Engine

/-- Modelled from the spec: the external parser finds no match for any
attribute group on an empty raw agent string ("empty agent string yields a
record with every field absent"); absence means "no rule matched". -/
def emptyParsedAgent : ParsedAgent :=
  ⟨⟨none, none, none, none⟩, ⟨none, none, none, none, none⟩,
   ⟨none, none, none⟩, ⟨none⟩, ⟨none, none, none, none, none⟩⟩

/-- `parse` (lines 57-112): populate a record from the parser results, the
raw agent text (empty normalized to absent) and the address, then derive
the fingerprint and family hash. -/
def parse (parsed : ParsedAgent) (agent ip : String) : UserAgent :=
  let base : UserAgent :=
    { ip := some ip
      fingerprint := none
      hash := none
      product := parsed.product
      os := parsed.os
      device := parsed.device
      cpu := parsed.cpu
      engine := parsed.engine
      user_agent := if agent = "" then none else some agent }
  { base with
      fingerprint := base.computeFingerprint
      hash := base.computeHash }

/-! ## Helper lemmas: string concatenation and token tags -/

theorem strApp_left_inj (t a b : String) : t ++ a = t ++ b ↔ a = b := by
  rw [String.ext_iff, String.ext_iff]
  simp [String.data_append]

theorem append_ne_empty_right (t : String) {ua : String} (h : ua ≠ "") :
    t ++ ua ≠ "" := by
  intro hc
  apply h
  have h2 := congrArg String.data hc
  simp [String.data_append] at h2
  exact String.ext (by simp [h2])

theorem neq_bv_b (x y : String) : ("bv:" ++ x = "b:" ++ y) ↔ False := by
  simp only [iff_false]
  intro h
  have h2 := congrArg String.data h
  simp [String.data_append] at h2

theorem neq_bvm_b (x y z : String) : ("bvm:" ++ x ++ "." ++ y = "b:" ++ z) ↔ False := by
  simp only [iff_false]
  intro h
  have h2 := congrArg String.data h
  simp [String.data_append] at h2

theorem neq_b_bv (x y : String) : ("b:" ++ x = "bv:" ++ y) ↔ False := by
  simp only [iff_false]
  intro h
  have h2 := congrArg String.data h
  simp [String.data_append] at h2

theorem neq_bvm_bv (x y z : String) : ("bvm:" ++ x ++ "." ++ y = "bv:" ++ z) ↔ False := by
  simp only [iff_false]
  intro h
  have h2 := congrArg String.data h
  simp [String.data_append] at h2

theorem neq_b_bvm (x y z : String) : ("b:" ++ x = "bvm:" ++ y ++ "." ++ z) ↔ False := by
  simp only [iff_false]
  intro h
  have h2 := congrArg String.data h
  simp [String.data_append] at h2

theorem neq_bv_bvm (x y z : String) : ("bv:" ++ x = "bvm:" ++ y ++ "." ++ z) ↔ False := by
  simp only [iff_false]
  intro h
  have h2 := congrArg String.data h
  simp [String.data_append] at h2

theorem neq_ov_o (x y : String) : ("ov:" ++ x = "o:" ++ y) ↔ False := by
  simp only [iff_false]
  intro h
  have h2 := congrArg String.data h
  simp [String.data_append] at h2

theorem neq_ovm_o (x y z : String) : ("ovm:" ++ x ++ "." ++ y = "o:" ++ z) ↔ False := by
  simp only [iff_false]
  intro h
  have h2 := congrArg String.data h
  simp [String.data_append] at h2

theorem neq_o_ov (x y : String) : ("o:" ++ x = "ov:" ++ y) ↔ False := by
  simp only [iff_false]
  intro h
  have h2 := congrArg String.data h
  simp [String.data_append] at h2

theorem neq_ovm_ov (x y z : String) : ("ovm:" ++ x ++ "." ++ y = "ov:" ++ z) ↔ False := by
  simp only [iff_false]
  intro h
  have h2 := congrArg String.data h
  simp [String.data_append] at h2

theorem neq_o_ovm (x y z : String) : ("o:" ++ x = "ovm:" ++ y ++ "." ++ z) ↔ False := by
  simp only [iff_false]
  intro h
  have h2 := congrArg String.data h
  simp [String.data_append] at h2

theorem neq_ov_ovm (x y z : String) : ("ov:" ++ x = "ovm:" ++ y ++ "." ++ z) ↔ False := by
  simp only [iff_false]
  intro h
  have h2 := congrArg String.data h
  simp [String.data_append] at h2

theorem neq_db_d (x y : String) : ("db:" ++ x = "d:" ++ y) ↔ False := by
  simp only [iff_false]
  intro h
  have h2 := congrArg String.data h
  simp [String.data_append] at h2

theorem neq_dm_d (x y : String) : ("dm:" ++ x = "d:" ++ y) ↔ False := by
  simp only [iff_false]
  intro h
  have h2 := congrArg String.data h
  simp [String.data_append] at h2

theorem neq_d_db (x y : String) : ("d:" ++ x = "db:" ++ y) ↔ False := by
  simp only [iff_false]
  intro h
  have h2 := congrArg String.data h
  simp [String.data_append] at h2

theorem neq_dm_db (x y : String) : ("dm:" ++ x = "db:" ++ y) ↔ False := by
  simp only [iff_false]
  intro h
  have h2 := congrArg String.data h
  simp [String.data_append] at h2

theorem neq_d_dm (x y : String) : ("d:" ++ x = "dm:" ++ y) ↔ False := by
  simp only [iff_false]
  intro h
  have h2 := congrArg String.data h
  simp [String.data_append] at h2

theorem neq_db_dm (x y : String) : ("db:" ++ x = "dm:" ++ y) ↔ False := by
  simp only [iff_false]
  intro h
  have h2 := congrArg String.data h
  simp [String.data_append] at h2

theorem neq_ev_e (x y : String) : ("ev:" ++ x = "e:" ++ y) ↔ False := by
  simp only [iff_false]
  intro h
  have h2 := congrArg String.data h
  simp [String.data_append] at h2

theorem neq_e_ev (x y : String) : ("e:" ++ x = "ev:" ++ y) ↔ False := by
  simp only [iff_false]
  intro h
  have h2 := congrArg String.data h
  simp [String.data_append] at h2

theorem neq_l_d (x y : String) : ("l:" ++ x = "d:" ++ y) ↔ False := by
  simp only [iff_false]
  intro h
  have h2 := congrArg String.data h
  simp [String.data_append] at h2

theorem neq_s_d (x y : String) : ("s:" ++ x = "d:" ++ y) ↔ False := by
  simp only [iff_false]
  intro h
  have h2 := congrArg String.data h
  simp [String.data_append] at h2

theorem neq_w_d (x y : String) : ("w:" ++ x = "d:" ++ y) ↔ False := by
  simp only [iff_false]
  intro h
  have h2 := congrArg String.data h
  simp [String.data_append] at h2

/-! ## Helper lemmas: the leading character of each token family -/

theorem mem_productTokens_head {p : Product} {t : String} (h : t ∈ productTokens p) :
    t.data.head? = some 'b' := by
  obtain ⟨name, major, minor, patch⟩ := p
  cases name with
  | none => simp [productTokens] at h
  | some n =>
    cases major with
    | none =>
      simp [productTokens] at h
      subst h; rfl
    | some mj =>
      cases minor with
      | none =>
        simp [productTokens] at h
        rcases h with h | h <;> subst h <;> rfl
      | some mi =>
        simp [productTokens] at h
        rcases h with h | h | h <;> subst h <;> rfl

theorem mem_osTokens_head {o : OS} {t : String} (h : t ∈ osTokens o) :
    t.data.head? = some 'o' := by
  obtain ⟨name, major, minor, patch, patch_minor⟩ := o
  cases name with
  | none => simp [osTokens] at h
  | some n =>
    cases major with
    | none =>
      simp [osTokens] at h
      subst h; rfl
    | some mj =>
      cases minor with
      | none =>
        simp [osTokens] at h
        rcases h with h | h <;> subst h <;> rfl
      | some mi =>
        simp [osTokens] at h
        rcases h with h | h | h <;> subst h <;> rfl

theorem mem_deviceTokens_head {d : Device} {t : String} (h : t ∈ deviceTokens d) :
    t.data.head? = some 'd' := by
  obtain ⟨name, brand, model⟩ := d
  cases name with
  | none => simp [deviceTokens] at h
  | some n =>
    cases brand with
    | none =>
      cases model with
      | none => simp [deviceTokens] at h; subst h; rfl
      | some m =>
        simp [deviceTokens] at h
        rcases h with h | h <;> subst h <;> rfl
    | some b =>
      cases model with
      | none =>
        simp [deviceTokens] at h
        rcases h with h | h <;> subst h <;> rfl
      | some m =>
        simp [deviceTokens] at h
        rcases h with h | h | h <;> subst h <;> rfl

theorem mem_cpuTokens_head {c : CPU} {t : String} (h : t ∈ cpuTokens c) :
    t.data.head? = some 'c' := by
  obtain ⟨arch⟩ := c
  cases arch with
  | none => simp [cpuTokens] at h
  | some a => simp [cpuTokens] at h; subst h; rfl

theorem mem_engineTokens_head {e : Engine} {t : String} (h : t ∈ engineTokens e) :
    t.data.head? = some 'e' := by
  obtain ⟨name, major, minor, patch, patch_minor⟩ := e
  cases name with
  | none => simp [engineTokens] at h
  | some n =>
    cases major with
    | none =>
      simp [engineTokens] at h
      subst h; rfl
    | some mj =>
      simp [engineTokens] at h
      rcases h with h | h <;> subst h <;> rfl

theorem mem_statTokens_head {ua : String} {t : String} (h : t ∈ statTokens ua) :
    t.data.head? = some 'l' ∨ t.data.head? = some 'd' ∨
      t.data.head? = some 's' ∨ t.data.head? = some 'w' := by
  simp [statTokens] at h
  rcases h with h | h | h | h <;> subst h
  · exact Or.inl rfl
  · exact Or.inr (Or.inl rfl)
  · exact Or.inr (Or.inr (Or.inl rfl))
  · exact Or.inr (Or.inr (Or.inr rfl))

theorem mem_ite_singleton {c : Prop} [Decidable c] {a b : String} :
    a ∈ (if c then [b] else ([] : List String)) ↔ c ∧ a = b := by
  split <;> simp_all

theorem mem_flagTokens_head {ua : String} {t : String} (h : t ∈ flagTokens ua) :
    t.data.head? = some 'f' := by
  simp only [flagTokens, List.mem_append, mem_ite_singleton] at h
  rcases h with ((((((h | h) | h) | h) | h) | h) | h) | h <;>
    (obtain ⟨-, h⟩ := h; subst h; rfl)

theorem mem_platformTokens_eq {ua : String} {t : String} (h : t ∈ platformTokens ua) :
    t = "fow:1" ∨ t = "fom:1" ∨ t = "fol:1" ∨ t = "foa:1" ∨ t = "foi:1" := by
  unfold platformTokens at h
  split at h
  · simp at h; exact Or.inl h
  · split at h
    · simp at h; exact Or.inr (Or.inl h)
    · split at h
      · simp at h; exact Or.inr (Or.inr (Or.inl h))
      · split at h
        · simp at h; exact Or.inr (Or.inr (Or.inr (Or.inl h)))
        · split at h
          · simp at h; exact Or.inr (Or.inr (Or.inr (Or.inr h)))
          · simp at h

theorem mem_platformTokens_head {ua : String} {t : String} (h : t ∈ platformTokens ua) :
    t.data.head? = some 'f' := by
  rcases mem_platformTokens_eq h with h | h | h | h | h <;> subst h <;> rfl

theorem mem_ipTokens_head {ip : Option String} {t : String} (h : t ∈ ipTokens ip) :
    t.data.head? = some 'i' := by
  cases ip with
  | none => simp [ipTokens] at h
  | some a =>
    by_cases h1 : strContainsChar a '.' = true
    · by_cases h2 : 2 ≤ (strSplit '.' a).length
      · simp [ipTokens, h1, h2] at h; subst h; rfl
      · simp [ipTokens, h1, h2] at h
    · by_cases h3 : strContainsChar a ':' = true
      · by_cases h4 : 4 ≤ (strSplit ':' a).length
        · simp [ipTokens, h1, h3, h4] at h; subst h; rfl
        · simp [ipTokens, h1, h3, h4] at h
      · simp [ipTokens, h1, h3] at h

/-! ## Helper lemmas: localizing token counts to their section -/

theorem count_zero_of_heads {l : List String} {t : String} {c : Char}
    (hl : ∀ x ∈ l, x.data.head? = some c) (ht : t.data.head? ≠ some c) :
    l.count t = 0 :=
  List.count_eq_zero.mpr (fun hm => ht (hl t hm))

theorem count_statTokens_zero {ua t : String}
    (h1 : t.data.head? ≠ some 'l') (h2 : t.data.head? ≠ some 'd')
    (h3 : t.data.head? ≠ some 's') (h4 : t.data.head? ≠ some 'w') :
    (statTokens ua).count t = 0 :=
  List.count_eq_zero.mpr (fun hm => by
    rcases mem_statTokens_head hm with h | h | h | h <;> simp_all)

theorem countBF_b (r : UserAgent) (ua t : String) (h : t.data.head? = some 'b') :
    (buildFeatures r ua).count t = (productTokens r.product).count t := by
  unfold buildFeatures
  simp only [List.count_append]
  rw [count_zero_of_heads (fun x hx => mem_osTokens_head hx) (by rw [h]; decide),
    count_zero_of_heads (fun x hx => mem_deviceTokens_head hx) (by rw [h]; decide),
    count_zero_of_heads (fun x hx => mem_cpuTokens_head hx) (by rw [h]; decide),
    count_zero_of_heads (fun x hx => mem_engineTokens_head hx) (by rw [h]; decide),
    count_statTokens_zero (by rw [h]; decide) (by rw [h]; decide)
      (by rw [h]; decide) (by rw [h]; decide),
    count_zero_of_heads (fun x hx => mem_flagTokens_head hx) (by rw [h]; decide),
    count_zero_of_heads (fun x hx => mem_platformTokens_head hx) (by rw [h]; decide),
    count_zero_of_heads (fun x hx => mem_ipTokens_head hx) (by rw [h]; decide)]
  omega

theorem countBF_o (r : UserAgent) (ua t : String) (h : t.data.head? = some 'o') :
    (buildFeatures r ua).count t = (osTokens r.os).count t := by
  unfold buildFeatures
  simp only [List.count_append]
  rw [count_zero_of_heads (fun x hx => mem_productTokens_head hx) (by rw [h]; decide),
    count_zero_of_heads (fun x hx => mem_deviceTokens_head hx) (by rw [h]; decide),
    count_zero_of_heads (fun x hx => mem_cpuTokens_head hx) (by rw [h]; decide),
    count_zero_of_heads (fun x hx => mem_engineTokens_head hx) (by rw [h]; decide),
    count_statTokens_zero (by rw [h]; decide) (by rw [h]; decide)
      (by rw [h]; decide) (by rw [h]; decide),
    count_zero_of_heads (fun x hx => mem_flagTokens_head hx) (by rw [h]; decide),
    count_zero_of_heads (fun x hx => mem_platformTokens_head hx) (by rw [h]; decide),
    count_zero_of_heads (fun x hx => mem_ipTokens_head hx) (by rw [h]; decide)]
  omega

theorem countBF_c (r : UserAgent) (ua t : String) (h : t.data.head? = some 'c') :
    (buildFeatures r ua).count t = (cpuTokens r.cpu).count t := by
  unfold buildFeatures
  simp only [List.count_append]
  rw [count_zero_of_heads (fun x hx => mem_productTokens_head hx) (by rw [h]; decide),
    count_zero_of_heads (fun x hx => mem_osTokens_head hx) (by rw [h]; decide),
    count_zero_of_heads (fun x hx => mem_deviceTokens_head hx) (by rw [h]; decide),
    count_zero_of_heads (fun x hx => mem_engineTokens_head hx) (by rw [h]; decide),
    count_statTokens_zero (by rw [h]; decide) (by rw [h]; decide)
      (by rw [h]; decide) (by rw [h]; decide),
    count_zero_of_heads (fun x hx => mem_flagTokens_head hx) (by rw [h]; decide),
    count_zero_of_heads (fun x hx => mem_platformTokens_head hx) (by rw [h]; decide),
    count_zero_of_heads (fun x hx => mem_ipTokens_head hx) (by rw [h]; decide)]
  omega

theorem countBF_e (r : UserAgent) (ua t : String) (h : t.data.head? = some 'e') :
    (buildFeatures r ua).count t = (engineTokens r.engine).count t := by
  unfold buildFeatures
  simp only [List.count_append]
  rw [count_zero_of_heads (fun x hx => mem_productTokens_head hx) (by rw [h]; decide),
    count_zero_of_heads (fun x hx => mem_osTokens_head hx) (by rw [h]; decide),
    count_zero_of_heads (fun x hx => mem_deviceTokens_head hx) (by rw [h]; decide),
    count_zero_of_heads (fun x hx => mem_cpuTokens_head hx) (by rw [h]; decide),
    count_statTokens_zero (by rw [h]; decide) (by rw [h]; decide)
      (by rw [h]; decide) (by rw [h]; decide),
    count_zero_of_heads (fun x hx => mem_flagTokens_head hx) (by rw [h]; decide),
    count_zero_of_heads (fun x hx => mem_platformTokens_head hx) (by rw [h]; decide),
    count_zero_of_heads (fun x hx => mem_ipTokens_head hx) (by rw [h]; decide)]
  omega

theorem countBF_d (r : UserAgent) (ua t : String) (h : t.data.head? = some 'd') :
    (buildFeatures r ua).count t =
      (deviceTokens r.device).count t + (statTokens ua).count t := by
  unfold buildFeatures
  simp only [List.count_append]
  rw [count_zero_of_heads (fun x hx => mem_productTokens_head hx) (by rw [h]; decide),
    count_zero_of_heads (fun x hx => mem_osTokens_head hx) (by rw [h]; decide),
    count_zero_of_heads (fun x hx => mem_cpuTokens_head hx) (by rw [h]; decide),
    count_zero_of_heads (fun x hx => mem_engineTokens_head hx) (by rw [h]; decide),
    count_zero_of_heads (fun x hx => mem_flagTokens_head hx) (by rw [h]; decide),
    count_zero_of_heads (fun x hx => mem_platformTokens_head hx) (by rw [h]; decide),
    count_zero_of_heads (fun x hx => mem_ipTokens_head hx) (by rw [h]; decide)]
  omega

theorem countBF_i (r : UserAgent) (ua t : String) (h : t.data.head? = some 'i') :
    (buildFeatures r ua).count t = (ipTokens r.ip).count t := by
  unfold buildFeatures
  simp only [List.count_append]
  rw [count_zero_of_heads (fun x hx => mem_productTokens_head hx) (by rw [h]; decide),
    count_zero_of_heads (fun x hx => mem_osTokens_head hx) (by rw [h]; decide),
    count_zero_of_heads (fun x hx => mem_deviceTokens_head hx) (by rw [h]; decide),
    count_zero_of_heads (fun x hx => mem_cpuTokens_head hx) (by rw [h]; decide),
    count_zero_of_heads (fun x hx => mem_engineTokens_head hx) (by rw [h]; decide),
    count_statTokens_zero (by rw [h]; decide) (by rw [h]; decide)
      (by rw [h]; decide) (by rw [h]; decide),
    count_zero_of_heads (fun x hx => mem_flagTokens_head hx) (by rw [h]; decide),
    count_zero_of_heads (fun x hx => mem_platformTokens_head hx) (by rw [h]; decide)]
  omega

theorem memBF_f {r : UserAgent} {ua t : String} (h : t.data.head? = some 'f') :
    t ∈ buildFeatures r ua ↔ t ∈ flagTokens ua ∨ t ∈ platformTokens ua := by
  unfold buildFeatures
  simp only [List.mem_append]
  constructor
  · rintro ((((((((hm | hm) | hm) | hm) | hm) | hm) | hm) | hm) | hm)
    · have h2 := mem_productTokens_head hm; rw [h] at h2; simp at h2
    · have h2 := mem_osTokens_head hm; rw [h] at h2; simp at h2
    · have h2 := mem_deviceTokens_head hm; rw [h] at h2; simp at h2
    · have h2 := mem_cpuTokens_head hm; rw [h] at h2; simp at h2
    · have h2 := mem_engineTokens_head hm; rw [h] at h2; simp at h2
    · rcases mem_statTokens_head hm with h2 | h2 | h2 | h2 <;>
        (rw [h] at h2; simp at h2)
    · exact Or.inl hm
    · exact Or.inr hm
    · have h2 := mem_ipTokens_head hm; rw [h] at h2; simp at h2
  · rintro (hm | hm)
    · exact Or.inl (Or.inl (Or.inr hm))
    · exact Or.inl (Or.inr hm)

/-! ## Helper lemmas: exact token counts within each section -/

theorem count_productTokens_b (p : Product) (a : String) :
    (productTokens p).count ("b:" ++ a) = if p.name = some a then 1 else 0 := by
  obtain ⟨name, major, minor, patch⟩ := p
  cases name with
  | none => simp [productTokens]
  | some n =>
    cases major with
    | none => simp [productTokens, List.count_cons, strApp_left_inj]
    | some mj =>
      cases minor with
      | none => simp [productTokens, List.count_cons, strApp_left_inj, neq_bv_b]
      | some mi =>
        simp [productTokens, List.count_cons, strApp_left_inj, neq_bv_b, neq_bvm_b]

theorem count_productTokens_bv (p : Product) (m : String) (hn : p.name.isSome) :
    (productTokens p).count ("bv:" ++ m) = if p.major = some m then 1 else 0 := by
  obtain ⟨name, major, minor, patch⟩ := p
  cases name with
  | none => simp at hn
  | some n =>
    cases major with
    | none => simp [productTokens, List.count_cons, neq_b_bv]
    | some mj =>
      cases minor with
      | none => simp [productTokens, List.count_cons, strApp_left_inj, neq_b_bv]
      | some mi =>
        simp [productTokens, List.count_cons, strApp_left_inj, neq_b_bv, neq_bvm_bv]

theorem count_productTokens_bvm (p : Product) (mj mi : String)
    (hn : p.name.isSome) (hmj : p.major = some mj) :
    (productTokens p).count ("bvm:" ++ mj ++ "." ++ mi) =
      if p.minor = some mi then 1 else 0 := by
  obtain ⟨name, major, minor, patch⟩ := p
  cases name with
  | none => simp at hn
  | some n =>
    simp only at hmj
    subst hmj
    cases minor with
    | none => simp [productTokens, List.count_cons, neq_b_bvm, neq_bv_bvm]
    | some mi2 =>
      simp [productTokens, List.count_cons, strApp_left_inj, neq_b_bvm, neq_bv_bvm]

theorem count_osTokens_o (o : OS) (a : String) :
    (osTokens o).count ("o:" ++ a) = if o.name = some a then 1 else 0 := by
  obtain ⟨name, major, minor, patch, patch_minor⟩ := o
  cases name with
  | none => simp [osTokens]
  | some n =>
    cases major with
    | none => simp [osTokens, List.count_cons, strApp_left_inj]
    | some mj =>
      cases minor with
      | none => simp [osTokens, List.count_cons, strApp_left_inj, neq_ov_o]
      | some mi =>
        simp [osTokens, List.count_cons, strApp_left_inj, neq_ov_o, neq_ovm_o]

theorem count_osTokens_ov (o : OS) (m : String) (hn : o.name.isSome) :
    (osTokens o).count ("ov:" ++ m) = if o.major = some m then 1 else 0 := by
  obtain ⟨name, major, minor, patch, patch_minor⟩ := o
  cases name with
  | none => simp at hn
  | some n =>
    cases major with
    | none => simp [osTokens, List.count_cons, neq_o_ov]
    | some mj =>
      cases minor with
      | none => simp [osTokens, List.count_cons, strApp_left_inj, neq_o_ov]
      | some mi =>
        simp [osTokens, List.count_cons, strApp_left_inj, neq_o_ov, neq_ovm_ov]

theorem count_osTokens_ovm (o : OS) (mj mi : String)
    (hn : o.name.isSome) (hmj : o.major = some mj) :
    (osTokens o).count ("ovm:" ++ mj ++ "." ++ mi) =
      if o.minor = some mi then 1 else 0 := by
  obtain ⟨name, major, minor, patch, patch_minor⟩ := o
  cases name with
  | none => simp at hn
  | some n =>
    simp only at hmj
    subst hmj
    cases minor with
    | none => simp [osTokens, List.count_cons, neq_o_ovm, neq_ov_ovm]
    | some mi2 =>
      simp [osTokens, List.count_cons, strApp_left_inj, neq_o_ovm, neq_ov_ovm]

theorem count_deviceTokens_d (d : Device) (a : String) :
    (deviceTokens d).count ("d:" ++ a) = if d.name = some a then 1 else 0 := by
  obtain ⟨name, brand, model⟩ := d
  cases name with
  | none => simp [deviceTokens]
  | some n =>
    cases brand with
    | none =>
      cases model with
      | none => simp [deviceTokens, List.count_cons, strApp_left_inj]
      | some m => simp [deviceTokens, List.count_cons, strApp_left_inj, neq_dm_d]
    | some b =>
      cases model with
      | none => simp [deviceTokens, List.count_cons, strApp_left_inj, neq_db_d]
      | some m =>
        simp [deviceTokens, List.count_cons, strApp_left_inj, neq_db_d, neq_dm_d]

theorem count_deviceTokens_db (d : Device) (a : String) (hn : d.name.isSome) :
    (deviceTokens d).count ("db:" ++ a) = if d.brand = some a then 1 else 0 := by
  obtain ⟨name, brand, model⟩ := d
  cases name with
  | none => simp at hn
  | some n =>
    cases brand with
    | none =>
      cases model with
      | none => simp [deviceTokens, List.count_cons, neq_d_db]
      | some m => simp [deviceTokens, List.count_cons, neq_d_db, neq_dm_db]
    | some b =>
      cases model with
      | none => simp [deviceTokens, List.count_cons, strApp_left_inj, neq_d_db]
      | some m =>
        simp [deviceTokens, List.count_cons, strApp_left_inj, neq_d_db, neq_dm_db]

theorem count_deviceTokens_dm (d : Device) (a : String) (hn : d.name.isSome) :
    (deviceTokens d).count ("dm:" ++ a) = if d.model = some a then 1 else 0 := by
  obtain ⟨name, brand, model⟩ := d
  cases name with
  | none => simp at hn
  | some n =>
    cases brand with
    | none =>
      cases model with
      | none => simp [deviceTokens, List.count_cons, neq_d_dm]
      | some m => simp [deviceTokens, List.count_cons, strApp_left_inj, neq_d_dm]
    | some b =>
      cases model with
      | none => simp [deviceTokens, List.count_cons, neq_d_dm, neq_db_dm]
      | some m =>
        simp [deviceTokens, List.count_cons, strApp_left_inj, neq_d_dm, neq_db_dm]

theorem count_cpuTokens_c (c : CPU) (a : String) :
    (cpuTokens c).count ("c:" ++ a) = if c.architecture = some a then 1 else 0 := by
  obtain ⟨arch⟩ := c
  cases arch with
  | none => simp [cpuTokens]
  | some x => simp [cpuTokens, List.count_cons, strApp_left_inj]

theorem count_engineTokens_e (e : Engine) (a : String) :
    (engineTokens e).count ("e:" ++ a) = if e.name = some a then 1 else 0 := by
  obtain ⟨name, major, minor, patch, patch_minor⟩ := e
  cases name with
  | none => simp [engineTokens]
  | some n =>
    cases major with
    | none => simp [engineTokens, List.count_cons, strApp_left_inj]
    | some mj => simp [engineTokens, List.count_cons, strApp_left_inj, neq_ev_e]

theorem count_engineTokens_ev (e : Engine) (a : String) (hn : e.name.isSome) :
    (engineTokens e).count ("ev:" ++ a) = if e.major = some a then 1 else 0 := by
  obtain ⟨name, major, minor, patch, patch_minor⟩ := e
  cases name with
  | none => simp at hn
  | some n =>
    cases major with
    | none => simp [engineTokens, List.count_cons, neq_e_ev]
    | some mj => simp [engineTokens, List.count_cons, strApp_left_inj, neq_e_ev]

theorem neq_l_db (x y : String) : ("l:" ++ x = "db:" ++ y) ↔ False := by
  simp only [iff_false]
  intro h
  have h2 := congrArg String.data h
  simp [String.data_append] at h2

theorem neq_s_db (x y : String) : ("s:" ++ x = "db:" ++ y) ↔ False := by
  simp only [iff_false]
  intro h
  have h2 := congrArg String.data h
  simp [String.data_append] at h2

theorem neq_w_db (x y : String) : ("w:" ++ x = "db:" ++ y) ↔ False := by
  simp only [iff_false]
  intro h
  have h2 := congrArg String.data h
  simp [String.data_append] at h2

theorem neq_l_dm (x y : String) : ("l:" ++ x = "dm:" ++ y) ↔ False := by
  simp only [iff_false]
  intro h
  have h2 := congrArg String.data h
  simp [String.data_append] at h2

theorem neq_s_dm (x y : String) : ("s:" ++ x = "dm:" ++ y) ↔ False := by
  simp only [iff_false]
  intro h
  have h2 := congrArg String.data h
  simp [String.data_append] at h2

theorem neq_w_dm (x y : String) : ("w:" ++ x = "dm:" ++ y) ↔ False := by
  simp only [iff_false]
  intro h
  have h2 := congrArg String.data h
  simp [String.data_append] at h2

theorem count_statTokens_db (ua x : String) :
    (statTokens ua).count ("db:" ++ x) = 0 := by
  simp [statTokens, List.count_cons, neq_d_db, neq_l_db, neq_s_db, neq_w_db]

theorem count_statTokens_dm (ua x : String) :
    (statTokens ua).count ("dm:" ++ x) = 0 := by
  simp [statTokens, List.count_cons, neq_d_dm, neq_l_dm, neq_s_dm, neq_w_dm]

theorem count_statTokens_d (ua a : String) :
    (statTokens ua).count ("d:" ++ a) =
      if toString (countDigits ua) = a then 1 else 0 := by
  simp [statTokens, List.count_cons, strApp_left_inj, neq_l_d, neq_s_d, neq_w_d]

/-- Two records whose unsorted feature vectors count some token differently
have different sorted feature vectors. -/
theorem sortedFeatures_ne_of_count_ne {r1 r2 : UserAgent} {ua : String} {t : String}
    (h : (buildFeatures r1 ua).count t ≠ (buildFeatures r2 ua).count t) :
    sortedFeatures r1 ua ≠ sortedFeatures r2 ua := by
  intro he
  apply h
  have p1 := List.mergeSort_perm (buildFeatures r1 ua) strLeb
  have p2 := List.mergeSort_perm (buildFeatures r2 ua) strLeb
  calc (buildFeatures r1 ua).count t
      = (sortedFeatures r1 ua).count t := (p1.count_eq t).symm
    _ = (sortedFeatures r2 ua).count t := by rw [he]
    _ = (buildFeatures r2 ua).count t := p2.count_eq t

/-! ## Helper lemmas: joins, canonical sections, sort order, flags -/

theorem joinSep_append_last (sep : String) (xs : List String) (ua : String) :
    ∃ t : String, joinSep sep (xs ++ [ua]) = t ++ ua := by
  induction xs with
  | nil =>
    refine ⟨"", ?_⟩
    simp [joinSep]
  | cons x rest ih =>
    obtain ⟨t, ht⟩ := ih
    cases hr : rest ++ [ua] with
    | nil => simp at hr
    | cons y t2 =>
      refine ⟨x ++ sep ++ t, ?_⟩
      have : joinSep sep ((x :: rest) ++ [ua]) = x ++ sep ++ joinSep sep (rest ++ [ua]) := by
        rw [List.cons_append, hr]
        rfl
      rw [this, ht]
      simp [String.append_assoc]

theorem normalizedStringInternal_eq_filter (r : UserAgent) (ua : String) :
    r.normalizedStringInternal ua =
      joinSep "|"
        (([browserStr r, osStr r, deviceStr r].filter (fun s => !s.isEmpty)) ++ [ua]) := by
  unfold UserAgent.normalizedStringInternal
  cases hb : (browserStr r).isEmpty <;> cases ho : (osStr r).isEmpty <;>
    cases hd : (deviceStr r).isEmpty <;>
      simp [hb, ho, hd, List.filter]

theorem normalizedStringInternal_congr {r1 r2 : UserAgent} (hp : r1.product = r2.product)
    (ho : r1.os = r2.os) (hd : r1.device = r2.device) (ua : String) :
    r1.normalizedStringInternal ua = r2.normalizedStringInternal ua := by
  unfold UserAgent.normalizedStringInternal browserStr osStr deviceStr
  rw [hp, ho, hd]

theorem leChars_total : ∀ a b : List Char, (leChars a b || leChars b a) = true
  | [], b => by cases b <;> simp [leChars]
  | a :: as, [] => by simp [leChars]
  | a :: as, b :: bs => by
    by_cases hab : a = b
    · subst hab
      simpa [leChars] using leChars_total as bs
    · have h1 : (a == b) = false := beq_eq_false_iff_ne.mpr hab
      have h2 : (b == a) = false := beq_eq_false_iff_ne.mpr (Ne.symm hab)
      simp only [leChars, h1, h2, if_false, Bool.ite_eq_true_distrib]
      rcases lt_trichotomy a b with h | h | h
      · simp [h]
      · exact absurd h hab
      · simp [h, not_lt_of_gt h]

theorem leChars_trans : ∀ a b c : List Char,
    leChars a b = true → leChars b c = true → leChars a c = true
  | [], _, _, _, _ => rfl
  | _ :: _, [], _, h1, _ => by simp [leChars] at h1
  | _ :: _, _ :: _, [], _, h2 => by simp [leChars] at h2
  | x :: xs, y :: ys, z :: zs, h1, h2 => by
    simp only [leChars] at h1 h2 ⊢
    by_cases hxy : x = y
    · subst hxy
      rw [if_pos (by simp)] at h1
      by_cases hxz : x = z
      · subst hxz
        rw [if_pos (by simp)] at h2 ⊢
        exact leChars_trans xs ys zs h1 h2
      · rw [if_neg (by simp [hxz])] at h2 ⊢
        exact h2
    · rw [if_neg (by simp [hxy])] at h1
      have hlt1 : x < y := of_decide_eq_true h1
      by_cases hyz : y = z
      · subst hyz
        rw [if_neg (by simp [hxy])]
        exact h1
      · rw [if_neg (by simp [hyz])] at h2
        have hlt2 : y < z := of_decide_eq_true h2
        have hlt : x < z := lt_trans hlt1 hlt2
        rw [if_neg (by simp [ne_of_lt hlt])]
        exact decide_eq_true hlt

theorem strLeb_total (a b : String) : (strLeb a b || strLeb b a) = true :=
  leChars_total a.data b.data

theorem strLeb_trans (a b c : String) (h1 : strLeb a b = true) (h2 : strLeb b c = true) :
    strLeb a c = true :=
  leChars_trans a.data b.data c.data h1 h2

theorem mem_flagTokens_fs (ua : String) :
    "fs:1" ∈ flagTokens ua ↔
      (strContains ua "Safari" = true ∧ strContains ua "Chrome" = false) := by
  simp [flagTokens, List.mem_append, mem_ite_singleton]

theorem mem_flagTokens_fc (ua : String) :
    "fc:1" ∈ flagTokens ua ↔ strContains ua "Chrome" = true := by
  simp [flagTokens, List.mem_append, mem_ite_singleton]

theorem fs_notMem_platformTokens (ua : String) : "fs:1" ∉ platformTokens ua := by
  intro h
  rcases mem_platformTokens_eq h with h | h | h | h | h <;> simp at h

theorem fc_notMem_platformTokens (ua : String) : "fc:1" ∉ platformTokens ua := by
  intro h
  rcases mem_platformTokens_eq h with h | h | h | h | h <;> simp at h

/-! ## Concrete records used to instantiate the theorems -/

/-- A realistic raw agent text containing both Safari and Chrome markers. -/
def sampleUA : String :=
  "Mozilla/5.0 (Windows NT 10.0; Win64; x64) AppleWebKit/537.36 Chrome/115.0 Safari/537.36"

/-- A fully populated record for `sampleUA`. -/
def sampleRecord : UserAgent :=
  { ip := some "192.168.1.10"
    fingerprint := none
    hash := none
    product := ⟨some "Chrome", some "115", some "0", none⟩
    os := ⟨some "Windows", some "10", none, none, none⟩
    device := ⟨none, none, none⟩
    cpu := ⟨some "x86"⟩
    engine := ⟨some "Blink", some "115", none, none, none⟩
    user_agent := some sampleUA }

/-- `sampleRecord` with a different address, CPU and engine. -/
def sampleRecordAlt : UserAgent :=
  { sampleRecord with
      ip := none
      cpu := ⟨none⟩
      engine := ⟨some "Gecko", none, none, none, none⟩ }

/-! ## Claim theorems -/

/-- C1: the fingerprint and the family hash are both present if and only if
the raw agent text is present, and a record built from an empty raw agent
string has both derived fields absent regardless of every other field. -/
theorem derived_present_iff_raw_present :
    (∀ r : UserAgent,
      (r.computeFingerprint.isSome ↔ r.user_agent.isSome) ∧
      (r.computeHash.isSome ↔ r.user_agent.isSome)) ∧
    (∀ pa : ParsedAgent, ∀ ip : String,
      (parse pa "" ip).fingerprint = none ∧ (parse pa "" ip).hash = none) := by
  constructor
  · intro r
    constructor <;> simp [UserAgent.computeFingerprint, UserAgent.computeHash]
  · intro pa ip
    simp [parse, UserAgent.computeFingerprint, UserAgent.computeHash]

/-- C2: for a record with a (non-empty, per the data-model invariant) raw
agent text, the canonical string is the non-empty group-strings followed by
the raw text joined by pipes, it ends with the raw text, and it is
non-empty; `normalized_string` returns exactly that string. -/
theorem canonical_sections (r : UserAgent) (ua : String)
    (h : r.user_agent = some ua) (hne : ua ≠ "") :
    r.normalizedString = some (r.normalizedStringInternal ua) ∧
    r.normalizedStringInternal ua =
      joinSep "|"
        (([browserStr r, osStr r, deviceStr r].filter (fun s => !s.isEmpty)) ++ [ua]) ∧
    (∃ t : String, r.normalizedStringInternal ua = t ++ ua) ∧
    r.normalizedStringInternal ua ≠ "" := by
  obtain ⟨t, ht⟩ := joinSep_append_last "|"
    ([browserStr r, osStr r, deviceStr r].filter (fun s => !s.isEmpty)) ua
  refine ⟨by simp [UserAgent.normalizedString, h], normalizedStringInternal_eq_filter r ua,
    ⟨t, ?_⟩, ?_⟩
  · rw [normalizedStringInternal_eq_filter r ua]
    exact ht
  · rw [normalizedStringInternal_eq_filter r ua, ht]
    exact append_ne_empty_right t hne

/-- C2 witness: `canonical_sections` instantiated at `sampleRecord`. -/
theorem canonical_sections_witness :
    sampleRecord.user_agent = some sampleUA ∧ sampleUA ≠ "" ∧
      (sampleRecord.normalizedString = some (sampleRecord.normalizedStringInternal sampleUA) ∧
       sampleRecord.normalizedStringInternal sampleUA =
         joinSep "|"
           (([browserStr sampleRecord, osStr sampleRecord, deviceStr sampleRecord].filter
             (fun s => !s.isEmpty)) ++ [sampleUA]) ∧
       (∃ t : String,
         sampleRecord.normalizedStringInternal sampleUA = t ++ sampleUA) ∧
       sampleRecord.normalizedStringInternal sampleUA ≠ "") :=
  ⟨rfl, by decide, canonical_sections sampleRecord sampleUA rfl (by decide)⟩

/-- C3: for a record with a raw agent text the fingerprint is the hex of a
second BLAKE3 pass over the hex of a first BLAKE3 pass over the feature
string, which joins the lexicographically sorted feature tokens by the
3-character separator. -/
theorem fingerprint_double_hash (r : UserAgent) (ua : String)
    (h : r.user_agent = some ua) :
    ∃ toks : List String,
      List.Pairwise (fun a b => strLeb a b = true) toks ∧
      toks.Perm (buildFeatures r ua) ∧
      r.computeFingerprint = some (blake3Hex (blake3Hex (joinSep "&%&" toks))) ∧
      ("&%&" : String).length = 3 := by
  refine ⟨sortedFeatures r ua, ?_, ?_, ?_, rfl⟩
  · exact List.sorted_mergeSort strLeb_trans strLeb_total (buildFeatures r ua)
  · exact List.mergeSort_perm (buildFeatures r ua) strLeb
  · simp [UserAgent.computeFingerprint, h]

/-- C3 witness: `fingerprint_double_hash` instantiated at `sampleRecord`. -/
theorem fingerprint_double_hash_witness :
    sampleRecord.user_agent = some sampleUA ∧
      ∃ toks : List String,
        List.Pairwise (fun a b => strLeb a b = true) toks ∧
        toks.Perm (buildFeatures sampleRecord sampleUA) ∧
        sampleRecord.computeFingerprint =
          some (blake3Hex (blake3Hex (joinSep "&%&" toks))) ∧
        ("&%&" : String).length = 3 :=
  ⟨rfl, fingerprint_double_hash sampleRecord sampleUA rfl⟩

/-- C4: the family hash is the hex of one single BLAKE3 pass over the
canonical string, so any record agreeing on the raw agent text and the
product, OS and device groups receives the same family hash regardless of
its address (and of its CPU and engine fields). -/
theorem family_hash_single_pass (r : UserAgent) (ua : String)
    (h : r.user_agent = some ua) :
    r.computeHash = some (blake3Hex (r.normalizedStringInternal ua)) ∧
    ∀ r2 : UserAgent, r2.user_agent = some ua → r2.product = r.product →
      r2.os = r.os → r2.device = r.device → r2.computeHash = r.computeHash := by
  constructor
  · simp [UserAgent.computeHash, h]
  · intro r2 h2 hp ho hd
    simp [UserAgent.computeHash, h, h2, normalizedStringInternal_congr hp ho hd ua]

/-- C4 witness: `family_hash_single_pass` instantiated at `sampleRecord`
and applied to `sampleRecordAlt`, which differs in address, CPU and
engine. -/
theorem family_hash_single_pass_witness :
    sampleRecord.user_agent = some sampleUA ∧
    sampleRecordAlt.user_agent = some sampleUA ∧
    sampleRecordAlt.ip ≠ sampleRecord.ip ∧
    sampleRecord.computeHash =
      some (blake3Hex (sampleRecord.normalizedStringInternal sampleUA)) ∧
    sampleRecordAlt.computeHash = sampleRecord.computeHash :=
  ⟨rfl, rfl, by decide,
    (family_hash_single_pass sampleRecord sampleUA rfl).1,
    (family_hash_single_pass sampleRecord sampleUA rfl).2 sampleRecordAlt rfl rfl rfl rfl⟩

/-- C5: a raw text containing both the Safari and the Chrome substrings
emits the Chrome flag and not the Safari-only flag; the Safari-only flag is
emitted exactly when Safari occurs and Chrome does not. -/
theorem safari_chrome_priority (r : UserAgent) (ua : String)
    (_h : r.user_agent = some ua) :
    (strContains ua "Safari" = true → strContains ua "Chrome" = true →
      "fc:1" ∈ buildFeatures r ua ∧ "fs:1" ∉ buildFeatures r ua) ∧
    ("fs:1" ∈ buildFeatures r ua ↔
      (strContains ua "Safari" = true ∧ strContains ua "Chrome" = false)) := by
  have hfs : ("fs:1" : String).data.head? = some 'f' := rfl
  have hfc : ("fc:1" : String).data.head? = some 'f' := rfl
  constructor
  · intro hs hc
    constructor
    · rw [memBF_f hfc]
      exact Or.inl ((mem_flagTokens_fc ua).mpr hc)
    · rw [memBF_f hfs]
      rintro (hm | hm)
      · rw [mem_flagTokens_fs] at hm
        rw [hm.2] at hc
        simp at hc
      · exact fs_notMem_platformTokens ua hm
  · rw [memBF_f hfs, mem_flagTokens_fs]
    constructor
    · rintro (hm | hm)
      · exact hm
      · exact absurd hm (fs_notMem_platformTokens ua)
    · exact fun hm => Or.inl hm

/-- C5 witness: `safari_chrome_priority` at `sampleRecord`, whose raw text
contains both Safari and Chrome. -/
theorem safari_chrome_priority_witness :
    sampleRecord.user_agent = some sampleUA ∧
    strContains sampleUA "Safari" = true ∧
    strContains sampleUA "Chrome" = true ∧
    ("fc:1" ∈ buildFeatures sampleRecord sampleUA ∧
      "fs:1" ∉ buildFeatures sampleRecord sampleUA) :=
  ⟨rfl, by decide, by decide,
    (safari_chrome_priority sampleRecord sampleUA rfl).1 (by decide) (by decide)⟩

/-- C6: the network-prefix rule of the feature builder.  A dotted address
with at least two dot-segments contributes exactly the one token `ip4:`
with the first two segments; otherwise a colon address with at least four
colon-segments contributes exactly the `ip6:` token with the first four
segments; an address of neither shape, or with too few colon-segments,
contributes no network token. -/
theorem network_token_rule (r : UserAgent) (ua : String)
    (_h : r.user_agent = some ua) :
    (∀ ip p0 p1 rest, r.ip = some ip → strContainsChar ip '.' = true →
      strSplit '.' ip = p0 :: p1 :: rest →
      ipTokens r.ip = ["ip4:" ++ p0 ++ "." ++ p1] ∧
      (buildFeatures r ua).count ("ip4:" ++ p0 ++ "." ++ p1) = 1) ∧
    (∀ ip, r.ip = some ip → strContainsChar ip '.' = false →
      strContainsChar ip ':' = true → 4 ≤ (strSplit ':' ip).length →
      ipTokens r.ip = ["ip6:" ++ joinSep ":" ((strSplit ':' ip).take 4)] ∧
      (buildFeatures r ua).count
        ("ip6:" ++ joinSep ":" ((strSplit ':' ip).take 4)) = 1) ∧
    (∀ ip, r.ip = some ip → strContainsChar ip '.' = false →
      strContainsChar ip ':' = true → (strSplit ':' ip).length < 4 →
      ipTokens r.ip = []) ∧
    (∀ ip, r.ip = some ip → strContainsChar ip '.' = false →
      strContainsChar ip ':' = false → ipTokens r.ip = []) := by
  refine ⟨?_, ?_, ?_, ?_⟩
  · intro ip p0 p1 rest hip hdot hsplit
    have htok : ipTokens r.ip = ["ip4:" ++ p0 ++ "." ++ p1] := by
      rw [hip]
      simp [ipTokens, hdot, hsplit]
    refine ⟨htok, ?_⟩
    rw [countBF_i r ua ("ip4:" ++ p0 ++ "." ++ p1) rfl, htok]
    simp
  · intro ip hip hdot hcolon hlen
    have htok : ipTokens r.ip = ["ip6:" ++ joinSep ":" ((strSplit ':' ip).take 4)] := by
      rw [hip]
      simp [ipTokens, hdot, hcolon, hlen]
    refine ⟨htok, ?_⟩
    rw [countBF_i r ua ("ip6:" ++ joinSep ":" ((strSplit ':' ip).take 4)) rfl, htok]
    simp
  · intro ip hip hdot hcolon hlen
    rw [hip]
    simp [ipTokens, hdot, hcolon]
    omega
  · intro ip hip hdot hcolon
    rw [hip]
    simp [ipTokens, hdot, hcolon]

/-- C6 witness: `network_token_rule` on the spec's example addresses
`203.0.113.7`, `2001:db8:85a3:0:0:0:0:1` and `localhost`. -/
theorem network_token_rule_witness :
    sampleRecord.user_agent = some sampleUA ∧
    ({ sampleRecord with ip := some "203.0.113.7" } : UserAgent).ip = some "203.0.113.7" ∧
    strContainsChar "203.0.113.7" '.' = true ∧
    strSplit '.' "203.0.113.7" = ["203", "0", "113", "7"] ∧
    (ipTokens (some "203.0.113.7") = ["ip4:" ++ "203" ++ "." ++ "0"] ∧
      (buildFeatures { sampleRecord with ip := some "203.0.113.7" } sampleUA).count
        ("ip4:" ++ "203" ++ "." ++ "0") = 1) ∧
    (ipTokens (some "2001:db8:85a3:0:0:0:0:1") =
      ["ip6:" ++ joinSep ":" ((strSplit ':' "2001:db8:85a3:0:0:0:0:1").take 4)]) ∧
    ipTokens (some "localhost") = [] :=
  ⟨rfl, rfl, by decide, by decide,
    (network_token_rule { sampleRecord with ip := some "203.0.113.7" } sampleUA rfl).1
      "203.0.113.7" "203" "0" ["113", "7"] rfl (by decide) (by decide),
    ((network_token_rule { sampleRecord with ip := some "2001:db8:85a3:0:0:0:0:1" }
        sampleUA rfl).2.1
      "2001:db8:85a3:0:0:0:0:1" rfl (by decide) (by decide) (by decide)).1,
    by decide⟩

/-- A record whose raw agent text is the single non-ASCII character `€`
(three UTF-8 bytes, one character). -/
def euroRecord : UserAgent :=
  { ip := none
    fingerprint := none
    hash := none
    product := ⟨none, none, none, none⟩
    os := ⟨none, none, none, none, none⟩
    device := ⟨none, none, none⟩
    cpu := ⟨none⟩
    engine := ⟨none, none, none, none, none⟩
    user_agent := some "€" }

/-- C7 counterexample: the `l:` token carries the UTF-8 byte length of the
raw text (Rust `str::len`), not its character length — for the one-character
text `€` the vector contains `l:3` and not `l:1` as the claim requires. -/
theorem stat_length_bytes_not_chars :
    euroRecord.user_agent = some "€" ∧ ("€" : String).length = 1 ∧
    "l:3" ∈ buildFeatures euroRecord "€" ∧
    "l:1" ∉ buildFeatures euroRecord "€" := by decide

/-- C7 amended: the feature vector contains exactly four
structural-statistics tokens, tagged `l:`, `d:`, `s:` and `w:`; the `l:`
value is the UTF-8 BYTE length of the raw text (Rust `str::len`, not the
character length) and the `d:` value is its count of ASCII digit
characters; and when the raw text consists of ASCII characters only —
where the ASCII models of Rust's Unicode character predicates are exact —
the `s:` value is its count of non-alphanumeric characters and the `w:`
value its count of whitespace-delimited tokens. -/
theorem stat_tokens_amended (r : UserAgent) (ua : String)
    (_h : r.user_agent = some ua) :
    (∀ t ∈ statTokens ua, t ∈ buildFeatures r ua) ∧
    (∃ sv wv : String,
      statTokens ua =
        ["l:" ++ toString ua.utf8ByteSize,
         "d:" ++ toString ((ua.data.filter isAsciiDigit).length),
         "s:" ++ sv, "w:" ++ wv]) ∧
    (isAsciiText ua = true →
      statTokens ua =
        ["l:" ++ toString ua.utf8ByteSize,
         "d:" ++ toString ((ua.data.filter isAsciiDigit).length),
         "s:" ++ toString ((ua.data.filter (fun c => !isAlphanumericR c)).length),
         "w:" ++ toString ((splitWhitespaceR ua.data).length)]) := by
  refine ⟨?_, ⟨toString (countSymbols ua), toString (countWords ua), rfl⟩, fun _ => rfl⟩
  intro t ht
  unfold buildFeatures
  simp only [List.mem_append]
  exact Or.inl (Or.inl (Or.inl (Or.inr ht)))

/-- C7 witness: `stat_tokens_amended` instantiated at `sampleRecord`,
whose raw text is ASCII-only. -/
theorem stat_tokens_amended_witness :
    sampleRecord.user_agent = some sampleUA ∧ isAsciiText sampleUA = true ∧
      ((∀ t ∈ statTokens sampleUA, t ∈ buildFeatures sampleRecord sampleUA) ∧
       (∃ sv wv : String,
         statTokens sampleUA =
           ["l:" ++ toString sampleUA.utf8ByteSize,
            "d:" ++ toString ((sampleUA.data.filter isAsciiDigit).length),
            "s:" ++ sv, "w:" ++ wv]) ∧
       (isAsciiText sampleUA = true →
         statTokens sampleUA =
           ["l:" ++ toString sampleUA.utf8ByteSize,
            "d:" ++ toString ((sampleUA.data.filter isAsciiDigit).length),
            "s:" ++ toString
              ((sampleUA.data.filter (fun c => !isAlphanumericR c)).length),
            "w:" ++ toString ((splitWhitespaceR sampleUA.data).length)])) :=
  ⟨rfl, by decide, stat_tokens_amended sampleRecord sampleUA rfl⟩

/-- A record whose engine has only a patch component. -/
def engineP1 : UserAgent :=
  { ip := some "10.0.0.1"
    fingerprint := none
    hash := none
    product := ⟨none, none, none, none⟩
    os := ⟨none, none, none, none, none⟩
    device := ⟨none, none, none⟩
    cpu := ⟨none⟩
    engine := ⟨none, none, none, some "1", none⟩
    user_agent := some "x" }

/-- `engineP1` with a different engine patch value. -/
def engineP2 : UserAgent :=
  { engineP1 with engine := ⟨none, none, none, some "2", none⟩ }

/-- C8 counterexample: two records with the same raw text and address that
differ in exactly one structured field (`engine.patch`) have the SAME
sorted feature vector, because the feature builder never reads that
field. -/
theorem sensitivity_fails_on_engine_patch :
    engineP1.user_agent = some "x" ∧ engineP2.user_agent = some "x" ∧
    engineP1.ip = engineP2.ip ∧
    engineP1.product = engineP2.product ∧ engineP1.os = engineP2.os ∧
    engineP1.device = engineP2.device ∧ engineP1.cpu = engineP2.cpu ∧
    engineP1.engine.name = engineP2.engine.name ∧
    engineP1.engine.major = engineP2.engine.major ∧
    engineP1.engine.minor = engineP2.engine.minor ∧
    engineP1.engine.patch_minor = engineP2.engine.patch_minor ∧
    engineP1.engine.patch ≠ engineP2.engine.patch ∧
    sortedFeatures engineP1 "x" = sortedFeatures engineP2 "x" := by
  refine ⟨rfl, rfl, rfl, rfl, rfl, rfl, rfl, rfl, rfl, rfl, rfl, by decide, ?_⟩
  have hbf : buildFeatures engineP1 "x" = buildFeatures engineP2 "x" := by decide
  unfold sortedFeatures
  rw [hbf]

/-- C8 amended: two records with the same present raw text and address that
differ in one structured field actually consumed by the feature builder —
product name, product major under a present name, product minor under a
present name and shared major, the symmetric OS fields, device name, device
brand or model under a present device name, CPU architecture, engine name,
or engine major under a present engine name — have different sorted feature
vectors.  (Fields the builder never reads — the patch-level fields and
engine minor — and gated fields whose gate is absent can differ without
changing the vector, as the counterexample shows.) -/
theorem feature_sensitivity_amended (r1 r2 : UserAgent) (ua : String)
    (_h1 : r1.user_agent = some ua) (_h2 : r2.user_agent = some ua)
    (_hip : r1.ip = r2.ip) :
    (r1.product.name ≠ r2.product.name →
      sortedFeatures r1 ua ≠ sortedFeatures r2 ua) ∧
    (r1.product.name.isSome → r2.product.name.isSome →
      r1.product.major ≠ r2.product.major →
      sortedFeatures r1 ua ≠ sortedFeatures r2 ua) ∧
    (∀ mj, r1.product.name.isSome → r2.product.name.isSome →
      r1.product.major = some mj → r2.product.major = some mj →
      r1.product.minor ≠ r2.product.minor →
      sortedFeatures r1 ua ≠ sortedFeatures r2 ua) ∧
    (r1.os.name ≠ r2.os.name →
      sortedFeatures r1 ua ≠ sortedFeatures r2 ua) ∧
    (r1.os.name.isSome → r2.os.name.isSome →
      r1.os.major ≠ r2.os.major →
      sortedFeatures r1 ua ≠ sortedFeatures r2 ua) ∧
    (∀ mj, r1.os.name.isSome → r2.os.name.isSome →
      r1.os.major = some mj → r2.os.major = some mj →
      r1.os.minor ≠ r2.os.minor →
      sortedFeatures r1 ua ≠ sortedFeatures r2 ua) ∧
    (r1.device.name ≠ r2.device.name →
      sortedFeatures r1 ua ≠ sortedFeatures r2 ua) ∧
    (r1.device.name.isSome → r2.device.name.isSome →
      r1.device.brand ≠ r2.device.brand →
      sortedFeatures r1 ua ≠ sortedFeatures r2 ua) ∧
    (r1.device.name.isSome → r2.device.name.isSome →
      r1.device.model ≠ r2.device.model →
      sortedFeatures r1 ua ≠ sortedFeatures r2 ua) ∧
    (r1.cpu.architecture ≠ r2.cpu.architecture →
      sortedFeatures r1 ua ≠ sortedFeatures r2 ua) ∧
    (r1.engine.name ≠ r2.engine.name →
      sortedFeatures r1 ua ≠ sortedFeatures r2 ua) ∧
    (r1.engine.name.isSome → r2.engine.name.isSome →
      r1.engine.major ≠ r2.engine.major →
      sortedFeatures r1 ua ≠ sortedFeatures r2 ua) := by
  refine ⟨?_, ?_, ?_, ?_, ?_, ?_, ?_, ?_, ?_, ?_, ?_, ?_⟩
  · intro hne
    rcases hn1 : r1.product.name with _ | a
    · rcases hn2 : r2.product.name with _ | b
      · exact absurd (hn1.trans hn2.symm) hne
      · apply sortedFeatures_ne_of_count_ne (t := "b:" ++ b)
        rw [countBF_b r1 ua ("b:" ++ b) rfl, countBF_b r2 ua ("b:" ++ b) rfl,
          count_productTokens_b, count_productTokens_b, hn1, hn2]
        split_ifs <;> simp_all
    · apply sortedFeatures_ne_of_count_ne (t := "b:" ++ a)
      rw [countBF_b r1 ua ("b:" ++ a) rfl, countBF_b r2 ua ("b:" ++ a) rfl,
        count_productTokens_b, count_productTokens_b, hn1]
      split_ifs <;> simp_all
  · intro hs1 hs2 hne
    rcases hm1 : r1.product.major with _ | m1
    · rcases hm2 : r2.product.major with _ | m2
      · exact absurd (hm1.trans hm2.symm) hne
      · apply sortedFeatures_ne_of_count_ne (t := "bv:" ++ m2)
        rw [countBF_b r1 ua ("bv:" ++ m2) rfl, countBF_b r2 ua ("bv:" ++ m2) rfl,
          count_productTokens_bv r1.product m2 hs1,
          count_productTokens_bv r2.product m2 hs2, hm1, hm2]
        split_ifs <;> simp_all
    · apply sortedFeatures_ne_of_count_ne (t := "bv:" ++ m1)
      rw [countBF_b r1 ua ("bv:" ++ m1) rfl, countBF_b r2 ua ("bv:" ++ m1) rfl,
        count_productTokens_bv r1.product m1 hs1,
        count_productTokens_bv r2.product m1 hs2, hm1]
      split_ifs <;> simp_all
  · intro mj hs1 hs2 hmj1 hmj2 hne
    rcases hm1 : r1.product.minor with _ | m1
    · rcases hm2 : r2.product.minor with _ | m2
      · exact absurd (hm1.trans hm2.symm) hne
      · apply sortedFeatures_ne_of_count_ne (t := "bvm:" ++ mj ++ "." ++ m2)
        rw [countBF_b r1 ua ("bvm:" ++ mj ++ "." ++ m2) rfl,
          countBF_b r2 ua ("bvm:" ++ mj ++ "." ++ m2) rfl,
          count_productTokens_bvm r1.product mj m2 hs1 hmj1,
          count_productTokens_bvm r2.product mj m2 hs2 hmj2, hm1, hm2]
        split_ifs <;> simp_all
    · apply sortedFeatures_ne_of_count_ne (t := "bvm:" ++ mj ++ "." ++ m1)
      rw [countBF_b r1 ua ("bvm:" ++ mj ++ "." ++ m1) rfl,
        countBF_b r2 ua ("bvm:" ++ mj ++ "." ++ m1) rfl,
        count_productTokens_bvm r1.product mj m1 hs1 hmj1,
        count_productTokens_bvm r2.product mj m1 hs2 hmj2, hm1]
      split_ifs <;> simp_all
  · intro hne
    rcases hn1 : r1.os.name with _ | a
    · rcases hn2 : r2.os.name with _ | b
      · exact absurd (hn1.trans hn2.symm) hne
      · apply sortedFeatures_ne_of_count_ne (t := "o:" ++ b)
        rw [countBF_o r1 ua ("o:" ++ b) rfl, countBF_o r2 ua ("o:" ++ b) rfl,
          count_osTokens_o, count_osTokens_o, hn1, hn2]
        split_ifs <;> simp_all
    · apply sortedFeatures_ne_of_count_ne (t := "o:" ++ a)
      rw [countBF_o r1 ua ("o:" ++ a) rfl, countBF_o r2 ua ("o:" ++ a) rfl,
        count_osTokens_o, count_osTokens_o, hn1]
      split_ifs <;> simp_all
  · intro hs1 hs2 hne
    rcases hm1 : r1.os.major with _ | m1
    · rcases hm2 : r2.os.major with _ | m2
      · exact absurd (hm1.trans hm2.symm) hne
      · apply sortedFeatures_ne_of_count_ne (t := "ov:" ++ m2)
        rw [countBF_o r1 ua ("ov:" ++ m2) rfl, countBF_o r2 ua ("ov:" ++ m2) rfl,
          count_osTokens_ov r1.os m2 hs1, count_osTokens_ov r2.os m2 hs2, hm1, hm2]
        split_ifs <;> simp_all
    · apply sortedFeatures_ne_of_count_ne (t := "ov:" ++ m1)
      rw [countBF_o r1 ua ("ov:" ++ m1) rfl, countBF_o r2 ua ("ov:" ++ m1) rfl,
        count_osTokens_ov r1.os m1 hs1, count_osTokens_ov r2.os m1 hs2, hm1]
      split_ifs <;> simp_all
  · intro mj hs1 hs2 hmj1 hmj2 hne
    rcases hm1 : r1.os.minor with _ | m1
    · rcases hm2 : r2.os.minor with _ | m2
      · exact absurd (hm1.trans hm2.symm) hne
      · apply sortedFeatures_ne_of_count_ne (t := "ovm:" ++ mj ++ "." ++ m2)
        rw [countBF_o r1 ua ("ovm:" ++ mj ++ "." ++ m2) rfl,
          countBF_o r2 ua ("ovm:" ++ mj ++ "." ++ m2) rfl,
          count_osTokens_ovm r1.os mj m2 hs1 hmj1,
          count_osTokens_ovm r2.os mj m2 hs2 hmj2, hm1, hm2]
        split_ifs <;> simp_all
    · apply sortedFeatures_ne_of_count_ne (t := "ovm:" ++ mj ++ "." ++ m1)
      rw [countBF_o r1 ua ("ovm:" ++ mj ++ "." ++ m1) rfl,
        countBF_o r2 ua ("ovm:" ++ mj ++ "." ++ m1) rfl,
        count_osTokens_ovm r1.os mj m1 hs1 hmj1,
        count_osTokens_ovm r2.os mj m1 hs2 hmj2, hm1]
      split_ifs <;> simp_all
  · intro hne
    rcases hn1 : r1.device.name with _ | a
    · rcases hn2 : r2.device.name with _ | b
      · exact absurd (hn1.trans hn2.symm) hne
      · apply sortedFeatures_ne_of_count_ne (t := "d:" ++ b)
        rw [countBF_d r1 ua ("d:" ++ b) rfl, countBF_d r2 ua ("d:" ++ b) rfl,
          count_deviceTokens_d, count_deviceTokens_d, count_statTokens_d, hn1, hn2]
        split_ifs <;> simp_all
    · apply sortedFeatures_ne_of_count_ne (t := "d:" ++ a)
      rw [countBF_d r1 ua ("d:" ++ a) rfl, countBF_d r2 ua ("d:" ++ a) rfl,
        count_deviceTokens_d, count_deviceTokens_d, count_statTokens_d, hn1]
      split_ifs <;> simp_all
  · intro hs1 hs2 hne
    rcases hb1 : r1.device.brand with _ | b1
    · rcases hb2 : r2.device.brand with _ | b2
      · exact absurd (hb1.trans hb2.symm) hne
      · apply sortedFeatures_ne_of_count_ne (t := "db:" ++ b2)
        rw [countBF_d r1 ua ("db:" ++ b2) rfl, countBF_d r2 ua ("db:" ++ b2) rfl,
          count_deviceTokens_db r1.device b2 hs1,
          count_deviceTokens_db r2.device b2 hs2, count_statTokens_db, hb1, hb2]
        split_ifs <;> simp_all
    · apply sortedFeatures_ne_of_count_ne (t := "db:" ++ b1)
      rw [countBF_d r1 ua ("db:" ++ b1) rfl, countBF_d r2 ua ("db:" ++ b1) rfl,
        count_deviceTokens_db r1.device b1 hs1,
        count_deviceTokens_db r2.device b1 hs2, count_statTokens_db, hb1]
      split_ifs <;> simp_all
  · intro hs1 hs2 hne
    rcases hb1 : r1.device.model with _ | b1
    · rcases hb2 : r2.device.model with _ | b2
      · exact absurd (hb1.trans hb2.symm) hne
      · apply sortedFeatures_ne_of_count_ne (t := "dm:" ++ b2)
        rw [countBF_d r1 ua ("dm:" ++ b2) rfl, countBF_d r2 ua ("dm:" ++ b2) rfl,
          count_deviceTokens_dm r1.device b2 hs1,
          count_deviceTokens_dm r2.device b2 hs2, count_statTokens_dm, hb1, hb2]
        split_ifs <;> simp_all
    · apply sortedFeatures_ne_of_count_ne (t := "dm:" ++ b1)
      rw [countBF_d r1 ua ("dm:" ++ b1) rfl, countBF_d r2 ua ("dm:" ++ b1) rfl,
        count_deviceTokens_dm r1.device b1 hs1,
        count_deviceTokens_dm r2.device b1 hs2, count_statTokens_dm, hb1]
      split_ifs <;> simp_all
  · intro hne
    rcases hc1 : r1.cpu.architecture with _ | a
    · rcases hc2 : r2.cpu.architecture with _ | b
      · exact absurd (hc1.trans hc2.symm) hne
      · apply sortedFeatures_ne_of_count_ne (t := "c:" ++ b)
        rw [countBF_c r1 ua ("c:" ++ b) rfl, countBF_c r2 ua ("c:" ++ b) rfl,
          count_cpuTokens_c, count_cpuTokens_c, hc1, hc2]
        split_ifs <;> simp_all
    · apply sortedFeatures_ne_of_count_ne (t := "c:" ++ a)
      rw [countBF_c r1 ua ("c:" ++ a) rfl, countBF_c r2 ua ("c:" ++ a) rfl,
        count_cpuTokens_c, count_cpuTokens_c, hc1]
      split_ifs <;> simp_all
  · intro hne
    rcases hn1 : r1.engine.name with _ | a
    · rcases hn2 : r2.engine.name with _ | b
      · exact absurd (hn1.trans hn2.symm) hne
      · apply sortedFeatures_ne_of_count_ne (t := "e:" ++ b)
        rw [countBF_e r1 ua ("e:" ++ b) rfl, countBF_e r2 ua ("e:" ++ b) rfl,
          count_engineTokens_e, count_engineTokens_e, hn1, hn2]
        split_ifs <;> simp_all
    · apply sortedFeatures_ne_of_count_ne (t := "e:" ++ a)
      rw [countBF_e r1 ua ("e:" ++ a) rfl, countBF_e r2 ua ("e:" ++ a) rfl,
        count_engineTokens_e, count_engineTokens_e, hn1]
      split_ifs <;> simp_all
  · intro hs1 hs2 hne
    rcases hm1 : r1.engine.major with _ | m1
    · rcases hm2 : r2.engine.major with _ | m2
      · exact absurd (hm1.trans hm2.symm) hne
      · apply sortedFeatures_ne_of_count_ne (t := "ev:" ++ m2)
        rw [countBF_e r1 ua ("ev:" ++ m2) rfl, countBF_e r2 ua ("ev:" ++ m2) rfl,
          count_engineTokens_ev r1.engine m2 hs1,
          count_engineTokens_ev r2.engine m2 hs2, hm1, hm2]
        split_ifs <;> simp_all
    · apply sortedFeatures_ne_of_count_ne (t := "ev:" ++ m1)
      rw [countBF_e r1 ua ("ev:" ++ m1) rfl, countBF_e r2 ua ("ev:" ++ m1) rfl,
        count_engineTokens_ev r1.engine m1 hs1,
        count_engineTokens_ev r2.engine m1 hs2, hm1]
      split_ifs <;> simp_all

/-- C8 witness: `feature_sensitivity_amended` applied to `sampleRecord`
and its variant with OS major changed from `10` to `11` (the spec's own
example), plus the resulting concrete inequality. -/
theorem feature_sensitivity_amended_witness :
    sampleRecord.user_agent = some sampleUA ∧
    ({ sampleRecord with os := ⟨some "Windows", some "11", none, none, none⟩ } :
        UserAgent).user_agent = some sampleUA ∧
    sampleRecord.ip =
      ({ sampleRecord with os := ⟨some "Windows", some "11", none, none, none⟩ } :
        UserAgent).ip ∧
    sortedFeatures sampleRecord sampleUA ≠
      sortedFeatures
        { sampleRecord with os := ⟨some "Windows", some "11", none, none, none⟩ }
        sampleUA :=
  ⟨rfl, rfl, rfl,
    (feature_sensitivity_amended sampleRecord
        { sampleRecord with os := ⟨some "Windows", some "11", none, none, none⟩ }
        sampleUA rfl rfl rfl).2.2.2.2.1
      (by decide) (by decide) (by decide)⟩

/-- C9 counterexample: `parse` on an empty raw agent string does NOT leave
the address field absent — it stores the given address, so not every field
of the resulting record is absent. -/
theorem parse_empty_keeps_address :
    (parse emptyParsedAgent "" "203.0.113.7").ip = some "203.0.113.7" ∧
    (parse emptyParsedAgent "" "203.0.113.7").ip ≠ none := by decide

/-- C9 amended: the build operation always succeeds, and for an empty raw
agent string it returns a record whose raw text and both derived
identifiers are absent and whose structured groups are exactly what the
external parser returned (all absent when the parser finds no match, as the
spec states for empty input), while the address field holds the given
address. -/
theorem parse_empty_agent (pa : ParsedAgent) (ip : String) :
    (parse pa "" ip).user_agent = none ∧
    (parse pa "" ip).fingerprint = none ∧
    (parse pa "" ip).hash = none ∧
    (parse pa "" ip).ip = some ip ∧
    (parse pa "" ip).product = pa.product ∧
    (parse pa "" ip).os = pa.os ∧
    (parse pa "" ip).device = pa.device ∧
    (parse pa "" ip).cpu = pa.cpu ∧
    (parse pa "" ip).engine = pa.engine ∧
    parse emptyParsedAgent "" ip =
      { ip := some ip
        fingerprint := none
        hash := none
        product := ⟨none, none, none, none⟩
        os := ⟨none, none, none, none, none⟩
        device := ⟨none, none, none⟩
        cpu := ⟨none⟩
        engine := ⟨none, none, none, none, none⟩
        user_agent := none } := by
  simp [parse, UserAgent.computeFingerprint, UserAgent.computeHash, emptyParsedAgent]

/-- C10: the family hash does not depend on the non-canonical fields — two
records with the same present raw text that agree on product, OS and device
but differ arbitrarily in address, CPU and engine have the same canonical
string and the same family hash. -/
theorem family_hash_noninterference (r1 r2 : UserAgent) (ua : String)
    (h1 : r1.user_agent = some ua) (h2 : r2.user_agent = some ua)
    (hp : r1.product = r2.product) (ho : r1.os = r2.os)
    (hd : r1.device = r2.device) :
    r1.normalizedStringInternal ua = r2.normalizedStringInternal ua ∧
    r1.computeHash = r2.computeHash := by
  have hn := normalizedStringInternal_congr hp ho hd ua
  exact ⟨hn, by simp [UserAgent.computeHash, h1, h2, hn]⟩

/-- C10 witness: `family_hash_noninterference` on `sampleRecord` and
`sampleRecordAlt`, which differ in address, CPU and engine. -/
theorem family_hash_noninterference_witness :
    sampleRecord.user_agent = some sampleUA ∧
    sampleRecordAlt.user_agent = some sampleUA ∧
    sampleRecord.ip ≠ sampleRecordAlt.ip ∧
    sampleRecord.cpu ≠ sampleRecordAlt.cpu ∧
    sampleRecord.engine ≠ sampleRecordAlt.engine ∧
    (sampleRecord.normalizedStringInternal sampleUA =
      sampleRecordAlt.normalizedStringInternal sampleUA ∧
     sampleRecord.computeHash = sampleRecordAlt.computeHash) :=
  ⟨rfl, rfl, by decide, by decide, by decide,
    family_hash_noninterference sampleRecord sampleRecordAlt sampleUA rfl rfl rfl rfl rfl⟩

end RsAgent
